import Mathlib

/-!
Shallow embedding of the object/property protocol core of the repository
(an abstract-interpretation-capable interpreter for a prototype-based
dynamic language).  The embedding follows the JavaScript sources:
- `src/unnamed/part_000` (property descriptor protocol: OrdinarySet,
  ValidateAndApplyPropertyDescriptor, OrdinaryDelete, ArraySetLength,
  EnumerateObjectProperties, the OrThrow wrappers, ...),
- `src/unnamed/part_001` (descriptor classification predicates,
  IsInTailPosition, ...),
- `src/src/values/StringExotic.js` (string-wrapper exotic GetOwnProperty),
- `src/src/methods/call.js` (OrdinaryCallBindThis, tail-call preparation),
- `src/src/evaluators/ReturnStatement.js` (ForInOfHeadEvaluation).

Modelling conventions:
* JS numbers are modelled as integers (the flows relevant here only use
  integer lengths and indices; NaN / -0 subtleties are out of model and
  noted where the source mentions them).
* Concrete values are a tagged inductive; abstract values carry an
  identity, the `mightHaveBeenDeleted` flag and a resolved-kind flag.
  JS reference equality (`===`) on values is modelled by structural
  equality of the representation.
* Object property maps are association lists (string map and symbol map,
  insertion order preserved, as in the source's `Map`s); a binding whose
  descriptor is `none` is a deleted-but-present binding, exactly as in
  the source where deletion only clears `propertyBinding.descriptor`.
* Host-level failures (IntrospectionError, invariant violations) and
  language-level abrupt completions (Throw, Break) are modelled as the
  error side of `Except`, mirroring the source which throws JS exceptions
  for both.
* `realm.recordModifiedProperty` is modelled as unconditionally appending
  the touched binding's key to a `modified` log (the source records the
  binding into the active effects-capture region; the log here is a
  superset of that behaviour, adequate to observe "no record was made").
-/

deriving instance DecidableEq for Except

namespace Prepock

/-- Language-level error kinds used by the embedded algorithms. -/
inductive ErrKind where
  | typeError
  | rangeError
  | referenceError
deriving DecidableEq, Repr

/-- Values of the embedded language.  `abstract id mightDeleted resolved`
models an `AbstractValue` with its identity, its `mightHaveBeenDeleted`
flag, and whether its kind is "resolved". -/
inductive JSValue where
  | undefV
  | nullv
  | boolv (b : Bool)
  | numv (n : Int)
  | strv (s : String)
  | symv (id : Nat)
  | objv (id : Nat)
  | wrapperObj (prim : JSValue)
  | emptyV
  | abstract (id : Nat) (mightDeleted : Bool) (resolved : Bool)
deriving DecidableEq, Repr

/-- Errors/abrupt outcomes raised (thrown) by the embedded algorithms. -/
inductive EvalError where
  | introspection
  | throwComp (e : ErrKind)
  | breakComp (v : JSValue) (target : Option String)
  | invariantFail
deriving DecidableEq, Repr

namespace JSValue

/-- `Value.mightHaveBeenDeleted()`: only abstract values can carry the flag. -/
def mightHaveBeenDeleted : JSValue → Bool
  | .abstract _ d _ => d
  | _ => false

/-- Whether the value is a `ConcreteValue` (not an `AbstractValue`). -/
def isConcrete : JSValue → Bool
  | .abstract .. => false
  | _ => true

/-- Whether the value is a (concrete) object. -/
def isObject : JSValue → Bool
  | .objv _ => true
  | .wrapperObj _ => true
  | _ => false

end JSValue

/-- Property keys: the source keeps strings in `O.properties` and symbols
in `O.symbols`; a `PropertyKeyValue` is a string or a symbol. -/
inductive PKey where
  | str (s : String)
  | sym (id : Nat)
deriving DecidableEq, Repr

/-- Property descriptor: all six fields optional, `none` meaning the field
is absent (`'field' in Desc` is false in the source). -/
structure DescE where
  value : Option JSValue := none
  writable : Option Bool := none
  get : Option JSValue := none
  set : Option JSValue := none
  enumerable : Option Bool := none
  configurable : Option Bool := none
deriving DecidableEq, Repr

/-- ECMA262 6.2.4.1 `IsAccessorDescriptor` (src/unnamed/part_001). -/
def IsAccessorDescriptor : Option DescE → Bool
  | none => false
  | some d => d.get.isSome || d.set.isSome

/-- ECMA262 6.2.4.2 `IsDataDescriptor` (src/unnamed/part_001). -/
def IsDataDescriptor : Option DescE → Bool
  | none => false
  | some d => d.value.isSome || d.writable.isSome

/-- ECMA262 6.2.4.3 `IsGenericDescriptor` (src/unnamed/part_001). -/
def IsGenericDescriptor : Option DescE → Bool
  | none => false
  | some d => !IsAccessorDescriptor (some d) && !IsDataDescriptor (some d)

/-- `Object.keys(Desc).length === 0`: every descriptor field is absent. -/
def descIsEmpty (d : DescE) : Bool :=
  d.value.isNone && d.writable.isNone && d.get.isNone && d.set.isNone &&
  d.enumerable.isNone && d.configurable.isNone

/-- ECMA262 7.2.9 `SameValue` on concrete values, modelled as structural
equality (numbers are integers here, so the NaN / -0 cases are out of
model). -/
def SameValue (x y : JSValue) : Bool := x == y

/-- Modelled from the spec: `SameValuePartial` (methods/abstract.js is not
among the sources) — strict value comparison for concrete values, falling
back to reference equality (structural identity here) otherwise. -/
def SameValuePartial (x y : JSValue) : Bool :=
  if x.isConcrete && y.isConcrete then SameValue x y else x == y

/-- The per-field comparison of step 4 of ValidateAndApplyPropertyDescriptor
for Value-typed fields: absent in Desc → no constraint; present in Desc but
absent in current → not identical; both present → `SameValue` when both are
concrete, reference equality otherwise (src/unnamed/part_000 lines 489-506). -/
def fieldIdenticalV (d c : Option JSValue) : Bool :=
  match d with
  | none => true
  | some dv =>
    match c with
    | none => false
    | some cv => if dv.isConcrete && cv.isConcrete then SameValue dv cv else dv == cv

/-- The per-field comparison of step 4 for boolean fields: the source wraps
them in `BooleanValue`s and applies `SameValue`, which is boolean equality. -/
def fieldIdenticalB (d c : Option Bool) : Bool :=
  match d with
  | none => true
  | some db =>
    match c with
    | none => false
    | some cb => db == cb

/-- Step 4 of ValidateAndApplyPropertyDescriptor: every field present in
Desc also occurs in current with an identical value.  The source loop
iterates the present fields of Desc and conjoins the comparisons (the
iteration order only affects which field short-circuits, not the result). -/
def descIdentical (Desc current : DescE) : Bool :=
  fieldIdenticalV Desc.value current.value &&
  fieldIdenticalB Desc.writable current.writable &&
  fieldIdenticalV Desc.get current.get &&
  fieldIdenticalV Desc.set current.set &&
  fieldIdenticalB Desc.enumerable current.enumerable &&
  fieldIdenticalB Desc.configurable current.configurable

/-- Generator-emission records (the residual-code emission requests of the
effects engine), as chosen by `InternalUpdatedProperty`. -/
inductive EmitRecord where
  | globalDelete (key : String)
  | propertyDelete (key : String)
  | globalDeclaration (key : String) (value : JSValue)
  | globalAssignment (key : String) (value : JSValue)
  | propertyAssignment (key : String) (value : JSValue)
  | defineProperty (key : String) (desc : DescE)
deriving DecidableEq, Repr

/-- The state of one object: its two property maps (association lists in
insertion order; a `none` descriptor is a deleted binding), its flags, and
the realm-side logs the algorithms write (modified-property records of the
effects engine, and generator emissions). -/
structure ObjState where
  properties : List (String × Option DescE) := []
  symbols : List (Nat × Option DescE) := []
  extensible : Bool := true
  isPartialFlag : Bool := false
  isSimpleFlag : Bool := true
  intrinsicFlag : Bool := false
  isGlobalObject : Bool := false
  generatorActive : Bool := false
  modified : List PKey := []
  emitted : List EmitRecord := []
deriving DecidableEq, Repr

/-- Replace the first binding for `k`, or append a new one (insertion order
preserved), matching `Map.prototype.set`. -/
def assocSet {α β : Type} [DecidableEq α] : List (α × β) → α → β → List (α × β)
  | [], k, v => [(k, v)]
  | (k0, v0) :: rest, k, v =>
    if k0 = k then (k0, v) :: rest else (k0, v0) :: assocSet rest k v

/-- Lookup in the property map appropriate for the key
(`InternalGetPropertiesMap` + `Map.prototype.get`): `none` = no binding,
`some none` = binding whose descriptor was deleted. -/
def getBinding (O : ObjState) : PKey → Option (Option DescE)
  | .str s => O.properties.lookup s
  | .sym i => O.symbols.lookup i

/-- Write a binding's descriptor slot into the appropriate map. -/
def putBinding (O : ObjState) (P : PKey) (d : Option DescE) : ObjState :=
  match P with
  | .str s => { O with properties := assocSet O.properties s d }
  | .sym i => { O with symbols := assocSet O.symbols i d }

/-- `realm.recordModifiedProperty(propertyBinding)`: log the touched
binding (here: its key) into the effects region's modified set. -/
def recordModifiedProperty (O : ObjState) (P : PKey) : ObjState :=
  { O with modified := O.modified ++ [P] }

/-- `InternalSetProperty` (src/unnamed/part_000 lines 75-85): create the
binding if absent, record it as modified, then set its descriptor. -/
def InternalSetProperty (O : ObjState) (P : PKey) (desc : DescE) : ObjState :=
  let O1 := match getBinding O P with
    | none => putBinding O P none
    | some _ => O
  let O2 := recordModifiedProperty O1 P
  putBinding O2 P (some desc)

/-- The emission record chosen by `InternalUpdatedProperty`
(src/unnamed/part_000 lines 93-111) from the binding's new descriptor. -/
def chooseEmitRecord (O : ObjState) (key : String) : EmitRecord :=
  let desc : Option DescE := match getBinding O (.str key) with
    | none => none
    | some d => d
  match desc with
  | none =>
    if O.isGlobalObject then .globalDelete key else .propertyDelete key
  | some d =>
    if d.configurable != some true && d.enumerable == some true &&
        O.isGlobalObject && d.value.isSome then
      .globalDeclaration key (d.value.getD .undefV)
    else if d.configurable == some true && d.enumerable == some true && d.value.isSome then
      if O.isGlobalObject then .globalAssignment key (d.value.getD .undefV)
      else .propertyAssignment key (d.value.getD .undefV)
    else
      .defineProperty key d

/-- `InternalUpdatedProperty` (src/unnamed/part_000 lines 87-112): notify
the generator of a mutation on an intrinsic object, choosing the emission
form from the new descriptor.  Only the emission log changes. -/
def InternalUpdatedProperty (O : ObjState) (P : PKey) : ObjState :=
  if !O.intrinsicFlag then O else
  if !O.generatorActive then O else
  match P with
  | .sym _ => O
  | .str key => { O with emitted := O.emitted ++ [chooseEmitRecord O key] }

/-- `ThrowIfMightHaveBeenDeleted` (src/unnamed/part_000 lines 1071-1076). -/
def ThrowIfMightHaveBeenDeleted (value : Option JSValue) : Except EvalError Unit :=
  match value with
  | none => .ok ()
  | some v =>
    if !v.mightHaveBeenDeleted then .ok ()
    else if !v.isConcrete then .error .introspection
    else .error .invariantFail

/-- Overwrite `prop`'s field with `Desc`'s when the latter is present
(step 10a: `for (let field in Desc) property[field] = Desc[field]`). -/
def overrideField {α : Type} : Option α → Option α → Option α
  | some x, _ => some x
  | none, p => p

/-- Step 10a of ValidateAndApplyPropertyDescriptor: copy every present
field of Desc onto the stored property descriptor. -/
def applyDescFields (Desc prop : DescE) : DescE :=
  { value := overrideField Desc.value prop.value,
    writable := overrideField Desc.writable prop.writable,
    get := overrideField Desc.get prop.get,
    set := overrideField Desc.set prop.set,
    enumerable := overrideField Desc.enumerable prop.enumerable,
    configurable := overrideField Desc.configurable prop.configurable }

/-- ECMA262 9.1.6.3 `ValidateAndApplyPropertyDescriptor`
(src/unnamed/part_000 lines 430-616).  `O = none` is the
IsCompatiblePropertyDescriptor use where no object is mutated; otherwise
the possibly-updated object state is returned. -/
def ValidateAndApplyPropertyDescriptor (O : Option ObjState) (P : Option PKey)
    (extensible : Bool) (Desc : DescE) (current : Option DescE) :
    Except EvalError (Bool × Option ObjState) := do
  -- 1. Assert: If O is not undefined, then IsPropertyKey(P) is true.
  if O.isSome && P.isNone then throw .invariantFail
  match current with
  | none =>
    -- 2.a. If extensible is false, return false.
    if !extensible then return (false, O)
    -- 2.c. generic or data Desc: create a data property with defaults.
    if IsGenericDescriptor (some Desc) || IsDataDescriptor (some Desc) then
      match O, P with
      | some o, some p =>
        let newDesc : DescE :=
          { value := some (Desc.value.getD .undefV),
            writable := some (Desc.writable.getD false),
            enumerable := some (Desc.enumerable.getD false),
            configurable := some (Desc.configurable.getD false) }
        return (true, some (InternalUpdatedProperty (InternalSetProperty o p newDesc) p))
      | _, _ => return (true, O)
    else
      -- 2.d. accessor Desc: create an accessor property with defaults.
      match O, P with
      | some o, some p =>
        let newDesc : DescE :=
          { get := some (Desc.get.getD .undefV),
            set := some (Desc.set.getD .undefV),
            enumerable := some (Desc.enumerable.getD false),
            configurable := some (Desc.configurable.getD false) }
        return (true, some (InternalUpdatedProperty (InternalSetProperty o p newDesc) p))
      | _, _ => return (true, O)
  | some cur => do
    ThrowIfMightHaveBeenDeleted cur.value
    -- 3. Return true, if every field in Desc is absent.
    if descIsEmpty Desc then return (true, O)
    -- 4. Return true, if every field of Desc occurs identically in current.
    if descIdentical Desc cur then return (true, O)
    -- 5. If the [[Configurable]] field of current is false, then
    if cur.configurable != some true then
      if Desc.configurable == some true then return (false, O)
      if Desc.enumerable.isSome && Desc.enumerable != cur.enumerable then
        return (false, O)
    let mut Ost := O
    -- 6. If IsGenericDescriptor(Desc) is true, no further validation is required.
    if IsGenericDescriptor (some Desc) then
      pure ()
    else if IsDataDescriptor (some cur) != IsDataDescriptor (some Desc) then
      -- 7. data <-> accessor kind change.
      if cur.configurable != some true then return (false, Ost)
      if IsDataDescriptor (some cur) then
        -- 7.b. convert data property to accessor property in place.
        match Ost, P with
        | some o, some p =>
          match getBinding o p with
          | none => throw .invariantFail
          | some none => pure ()
          | some (some d) =>
            let d1 : DescE :=
              { d with writable := none, value := none,
                       get := some .undefV, set := some .undefV }
            Ost := some (putBinding o p (some d1))
        | _, _ => pure ()
      else
        -- 7.c. convert accessor property to data property in place.
        match Ost, P with
        | some o, some p =>
          match getBinding o p with
          | none => throw .invariantFail
          | some none => pure ()
          | some (some d) =>
            let d1 : DescE :=
              { d with get := none, set := none,
                       writable := some false, value := some .undefV }
            Ost := some (putBinding o p (some d1))
        | _, _ => pure ()
    else if IsDataDescriptor (some cur) && IsDataDescriptor (some Desc) then
      -- 8. both data descriptors.
      if cur.configurable != some true then
        if cur.writable != some true && Desc.writable == some true then
          return (false, Ost)
        if cur.writable != some true then
          if Desc.value.isSome &&
              !SameValuePartial (Desc.value.getD .undefV) (cur.value.getD .undefV) then
            return (false, Ost)
    else
      -- 9. both accessor descriptors.
      if cur.configurable != some true then
        if Desc.set.isSome &&
            !SameValuePartial (Desc.set.getD .undefV) (cur.set.getD .undefV) then
          return (false, Ost)
        if Desc.get.isSome &&
            !SameValuePartial (Desc.get.getD .undefV) (cur.get.getD .undefV) then
          return (false, Ost)
    -- 10. If O is not undefined: set every present field of Desc on the
    -- stored property (creating or reviving the binding with `current`
    -- when it has no live descriptor), recording the binding as modified.
    match Ost, P with
    | some o, some p =>
      let start : DescE :=
        match getBinding o p with
        | none => cur
        | some none => cur
        | some (some d) => d
      let o1 := recordModifiedProperty o p
      let o2 := putBinding o1 p (some (applyDescFields Desc start))
      return (true, some (InternalUpdatedProperty o2 p))
    | _, _ => return (true, Ost)

/-- ECMA262 9.1.5.1 `OrdinaryGetOwnProperty`
(src/unnamed/part_000 lines 913-972).  May mutate the object: on a partial
object an unresolved abstract data value is re-derived as "resolved" via
the generator and written back. -/
def OrdinaryGetOwnProperty (O : ObjState) (P : PKey) :
    Except EvalError (Option DescE × ObjState) := do
  match getBinding O P with
  | none =>
    if O.isPartialFlag && !O.isSimpleFlag then throw .introspection
    return (none, O)
  | some none => return (none, O)
  | some (some X) =>
    if IsDataDescriptor (some X) then
      match X.value with
      | some (.abstract i d false) =>
        if O.isPartialFlag then
          if !O.generatorActive then throw .invariantFail
          let v := JSValue.abstract i d true
          let O1 := InternalSetProperty O P
            { value := some v,
              writable := some (X.writable.getD false),
              enumerable := some (X.enumerable.getD false),
              configurable := some (X.configurable.getD false) }
          return (some { value := some v, writable := X.writable,
                         enumerable := X.enumerable, configurable := X.configurable }, O1)
        else
          return (some { value := X.value, writable := X.writable,
                         enumerable := X.enumerable, configurable := X.configurable }, O)
      | _ =>
        return (some { value := X.value, writable := X.writable,
                       enumerable := X.enumerable, configurable := X.configurable }, O)
    else do
      if !IsAccessorDescriptor (some X) then throw .invariantFail
      return (some { get := X.get, set := X.set,
                     enumerable := X.enumerable, configurable := X.configurable }, O)

/-- ECMA262 9.1.6.1 `OrdinaryDefineOwnProperty`
(src/unnamed/part_000 lines 619-630). -/
def OrdinaryDefineOwnProperty (O : ObjState) (P : PKey) (Desc : DescE) :
    Except EvalError (Bool × ObjState) := do
  let r ← OrdinaryGetOwnProperty O P
  let extensible := r.2.extensible
  let v ← ValidateAndApplyPropertyDescriptor (some r.2) (some P) extensible Desc r.1
  return (v.1, v.2.getD r.2)

/-- `OrdinaryDelete` (src/unnamed/part_000 lines 335-362). -/
def OrdinaryDelete (O : ObjState) (P : PKey) :
    Except EvalError (Bool × ObjState) := do
  let r ← OrdinaryGetOwnProperty O P
  match r.1 with
  | none => return (true, r.2)
  | some d =>
    if d.configurable == some true then
      match getBinding r.2 P with
      | none => throw .invariantFail
      | some _ =>
        let O2 := recordModifiedProperty r.2 P
        let O3 := putBinding O2 P none
        return (true, InternalUpdatedProperty O3 P)
    else
      return (false, r.2)

/-- ECMA262 7.3.8 `DeletePropertyOrThrow` (src/unnamed/part_000 lines
365-384), over an ordinary object whose `$Delete` hook is `OrdinaryDelete`. -/
def DeletePropertyOrThrow (O : ObjState) (P : PKey) :
    Except EvalError (Bool × ObjState) := do
  let r ← OrdinaryDelete O P
  if !r.1 then throw (.throwComp .typeError)
  return r

/-- ECMA262 7.3.7 `DefinePropertyOrThrow` (src/unnamed/part_000 lines
708-725), over an ordinary object whose `$DefineOwnProperty` hook is
`OrdinaryDefineOwnProperty`. -/
def DefinePropertyOrThrow (O : ObjState) (P : PKey) (desc : DescE) :
    Except EvalError (Bool × ObjState) := do
  let r ← OrdinaryDefineOwnProperty O P desc
  if r.1 == false then throw (.throwComp .typeError)
  return r

theorem assocSet_lookup_self {α β : Type} [DecidableEq α] (m : List (α × β)) (k : α) (v : β) :
    (assocSet m k v).lookup k = some v := by
  induction m with
  | nil => simp [assocSet]
  | cons hd tl ih =>
    obtain ⟨k0, v0⟩ := hd
    by_cases h : k0 = k
    · subst h; simp [assocSet]
    · have hbeq : (k == k0) = false := by
        simp only [beq_eq_false_iff_ne, ne_eq]
        exact fun hh => h hh.symm
      simp [assocSet, h, List.lookup, hbeq, ih]

theorem getBinding_putBinding_self (O : ObjState) (P : PKey) (d : Option DescE) :
    getBinding (putBinding O P d) P = some d := by
  cases P <;> simp [getBinding, putBinding, assocSet_lookup_self]

theorem getBinding_recordModifiedProperty (O : ObjState) (P Q : PKey) :
    getBinding (recordModifiedProperty O P) Q = getBinding O Q := by
  cases Q <;> rfl

theorem getBinding_InternalUpdatedProperty (O : ObjState) (P Q : PKey) :
    getBinding (InternalUpdatedProperty O P) Q = getBinding O Q := by
  unfold InternalUpdatedProperty
  split
  · rfl
  · split
    · rfl
    · cases P with
      | str k => cases Q <;> simp [getBinding]
      | sym i => rfl

theorem getBinding_InternalSetProperty_self (O : ObjState) (P : PKey) (d : DescE) :
    getBinding (InternalSetProperty O P d) P = some (some d) := by
  unfold InternalSetProperty
  exact getBinding_putBinding_self ..

/-- C2. For every call to ValidateAndApplyPropertyDescriptor where current
is absent: if extensible is false the call returns false and no property is
created (the object state is returned untouched); otherwise, a generic or
data Desc creates a data property whose missing fields default to
value = undefined and writable = enumerable = configurable = false, an
accessor Desc creates an accessor property whose missing get/set default to
undefined (and enumerable/configurable to false), and the call returns true. -/
theorem claim_C2 (o : ObjState) (p : PKey) (ext : Bool) (Desc : DescE) :
    (ext = false →
      ValidateAndApplyPropertyDescriptor (some o) (some p) ext Desc none =
        .ok (false, some o)) ∧
    ((IsGenericDescriptor (some Desc) || IsDataDescriptor (some Desc)) = true →
      ∃ o2, ValidateAndApplyPropertyDescriptor (some o) (some p) true Desc none =
          .ok (true, some o2) ∧
        getBinding o2 p = some (some
          { value := some (Desc.value.getD .undefV),
            writable := some (Desc.writable.getD false),
            get := none, set := none,
            enumerable := some (Desc.enumerable.getD false),
            configurable := some (Desc.configurable.getD false) })) ∧
    ((IsGenericDescriptor (some Desc) || IsDataDescriptor (some Desc)) = false →
      ∃ o2, ValidateAndApplyPropertyDescriptor (some o) (some p) true Desc none =
          .ok (true, some o2) ∧
        getBinding o2 p = some (some
          { value := none, writable := none,
            get := some (Desc.get.getD .undefV),
            set := some (Desc.set.getD .undefV),
            enumerable := some (Desc.enumerable.getD false),
            configurable := some (Desc.configurable.getD false) })) := by
  refine ⟨?_, ?_, ?_⟩
  · intro h; subst h
    simp [ValidateAndApplyPropertyDescriptor, pure, Except.pure, bind, Except.bind]
  · intro h
    refine ⟨InternalUpdatedProperty (InternalSetProperty o p
      { value := some (Desc.value.getD .undefV),
        writable := some (Desc.writable.getD false),
        enumerable := some (Desc.enumerable.getD false),
        configurable := some (Desc.configurable.getD false) }) p, ?_, ?_⟩
    · simp [ValidateAndApplyPropertyDescriptor, h, pure, Except.pure, bind, Except.bind]
    · rw [getBinding_InternalUpdatedProperty, getBinding_InternalSetProperty_self]
  · intro h
    refine ⟨InternalUpdatedProperty (InternalSetProperty o p
      { get := some (Desc.get.getD .undefV),
        set := some (Desc.set.getD .undefV),
        enumerable := some (Desc.enumerable.getD false),
        configurable := some (Desc.configurable.getD false) }) p, ?_, ?_⟩
    · simp [ValidateAndApplyPropertyDescriptor, h, pure, Except.pure, bind, Except.bind]
    · rw [getBinding_InternalUpdatedProperty, getBinding_InternalSetProperty_self]

/-- Closed witness for claim C2 at concrete inputs. -/
theorem claim_C2_witness :
    ((false = false →
      ValidateAndApplyPropertyDescriptor (some {}) (some (.str "x")) false
          { value := some (.numv 1) } none = .ok (false, some {})) ∧ True) ∧ True := by
  refine ⟨⟨(claim_C2 {} (.str "x") false { value := some (.numv 1) }).1, trivial⟩, trivial⟩

/-- C3. For every call to ValidateAndApplyPropertyDescriptor where a
current descriptor exists and every field present in Desc also occurs in
current with an identical value (strict value comparison for concrete
values, reference equality otherwise — `descIdentical`), the call returns
true and performs no mutation: the returned object state is exactly the
input state, so the property binding is unchanged and no modified-property
record is added to the effects region. -/
theorem claim_C3 (o : ObjState) (p : PKey) (ext : Bool) (Desc cur : DescE)
    (hdel : (cur.value.getD .undefV).mightHaveBeenDeleted = false)
    (hid : descIdentical Desc cur = true) :
    ValidateAndApplyPropertyDescriptor (some o) (some p) ext Desc (some cur) =
      .ok (true, some o) := by
  have hthrow : ThrowIfMightHaveBeenDeleted cur.value = .ok () := by
    cases hv : cur.value with
    | none => rfl
    | some v =>
      rw [hv] at hdel
      simp at hdel
      simp [ThrowIfMightHaveBeenDeleted, hdel]
  cases hD : descIsEmpty Desc
  · simp [ValidateAndApplyPropertyDescriptor, hthrow, hD, hid, pure, Except.pure,
      bind, Except.bind]
  · simp [ValidateAndApplyPropertyDescriptor, hthrow, hD, pure, Except.pure,
      bind, Except.bind]

/-- A plain full data descriptor used by concrete witnesses. -/
def dataDescOne : DescE :=
  { value := some (.numv 1), writable := some true,
    enumerable := some true, configurable := some true }

/-- An object owning "x" with descriptor `dataDescOne`. -/
def objWithX : ObjState := { properties := [("x", some dataDescOne)] }

/-- Closed witness for claim C3: writing the same full data descriptor a
second time is a no-op success leaving the state untouched. -/
theorem claim_C3_witness :
    ValidateAndApplyPropertyDescriptor (some objWithX) (some (.str "x")) true
      dataDescOne (some dataDescOne) = .ok (true, some objWithX) :=
  claim_C3 _ _ _ _ _ (by decide) (by decide)

/-- Modelled from the spec: JS builtin `parseInt(s, 10)` as used by
`ArraySetLength` on property-map keys — skip leading spaces, optional
sign, then the longest decimal-digit prefix; no digits gives NaN
(modelled as `none`, which the subsequent range filter drops exactly as
NaN fails every comparison). -/
def parseIntJS (s : String) : Option Int :=
  let cs := s.data.dropWhile (fun c => c = ' ')
  let signAndRest : Int × List Char :=
    match cs with
    | '-' :: rest => (-1, rest)
    | '+' :: rest => (1, rest)
    | _ => (1, cs)
  let digits := signAndRest.2.takeWhile Char.isDigit
  if digits.isEmpty then none
  else some (signAndRest.1 *
    Int.ofNat (digits.foldl (fun n c => n * 10 + (c.toNat - 48)) 0))

/-- Modelled from the spec: `ToUint32` (methods/to.js is not among the
sources) on the values `ArraySetLength` feeds it: a concrete number is
reduced mod 2^32; an abstract value cannot be coerced concretely.  The
other concrete coercions (strings, booleans, ...) are not exercised by the
claims and are out of model. -/
def ToUint32 : JSValue → Except EvalError Int
  | .numv n => .ok (n % 4294967296)
  | .abstract .. => .error .introspection
  | _ => .error .invariantFail

/-- Modelled from the spec: `ToNumber` (methods/to.js is not among the
sources), same conventions as `ToUint32`. -/
def ToNumber : JSValue → Except EvalError Int
  | .numv n => .ok n
  | .abstract .. => .error .introspection
  | _ => .error .invariantFail

/-- Lexicographic (code-unit) comparison of strings as char lists: the
comparison JS `Array.prototype.sort()` applies to its elements after
converting them to strings. -/
def charListLe : List Char → List Char → Bool
  | [], _ => true
  | _ :: _, [] => false
  | a :: as, b :: bs =>
    if a.toNat < b.toNat then true
    else if b.toNat < a.toNat then false
    else charListLe as bs

/-- Insert into a list sorted ascending by `le`. -/
def insertSorted {α : Type} (le : α → α → Bool) (x : α) : List α → List α
  | [] => [x]
  | y :: ys => if le x y then x :: y :: ys else y :: insertSorted le x ys

/-- Sort ascending by `le` (insertion sort; the choice of stable sorting
algorithm is immaterial, only the ordering semantics matter). -/
def sortAscending {α : Type} (le : α → α → Bool) : List α → List α
  | [] => []
  | x :: xs => insertSorted le x (sortAscending le xs)

/-- JS `Array.prototype.sort()` with no comparator, as applied by
`ArraySetLength` (src/unnamed/part_000 line 873) to the array of present
indices: elements are compared as *strings* (lexicographically by code
unit), not numerically. -/
def jsDefaultSort (l : List Int) : List Int :=
  sortAscending (fun a b => charListLe (toString a).data (toString b).data) l

/-- The index list built at src/unnamed/part_000 lines 869-874:
`Array.from(A.properties.keys()).map(parseInt).filter(inRange).sort().reverse()`. -/
def arraySetLengthKeys (props : List (String × Option DescE)) (newLen oldLen : Int) :
    List Int :=
  (jsDefaultSort ((props.map Prod.fst).filterMap parseIntJS
    |>.filter (fun x => newLen ≤ x && x ≤ oldLen))).reverse

/-- Step 16 of `ArraySetLength` (src/unnamed/part_000 lines 876-898): walk
the prepared key list, deleting each index; on the first refused delete,
set length to the refused index + 1 (restoring writable when needed) and
report failure; afterwards steps 17-18. -/
def arraySetLengthDeleteLoop (keys : List Int) (newLenDesc : DescE)
    (newWritable : Bool) (A : ObjState) : Except EvalError (Bool × ObjState) :=
  match keys with
  | [] =>
    -- 17. If newWritable is false, clear the [[Writable]] attribute.
    if !newWritable then do
      let r ← OrdinaryDefineOwnProperty A (.str "length") { writable := some false }
      return (r.1, r.2)
    else
      .ok (true, A)
  | key :: rest => do
    let d ← OrdinaryDelete A (.str (toString key))
    if d.1 = false then do
      let newLenDesc2 : DescE := { newLenDesc with value := some (.numv (key + 1)) }
      let newLenDesc3 : DescE :=
        if newWritable = false then { newLenDesc2 with writable := some false }
        else newLenDesc2
      let r ← OrdinaryDefineOwnProperty d.2 (.str "length") newLenDesc3
      return (false, r.2)
    else
      arraySetLengthDeleteLoop rest newLenDesc newWritable d.2

/-- ECMA262 9.4.2.4 `ArraySetLength` (src/unnamed/part_000 lines 796-910).
The source diverges from the normative algorithm: instead of walking every
integer from oldLen-1 down to newLen it walks only the indices present in
the property map, ordered by `.sort().reverse()` — the JS *default*
(string-comparing) sort. -/
def ArraySetLength (A : ObjState) (Desc : DescE) : Except EvalError (Bool × ObjState) := do
  -- 1. If the [[Value]] field of Desc is absent, ordinary define.
  match Desc.value with
  | none => OrdinaryDefineOwnProperty A (.str "length") Desc
  | some DescValue => do
    -- 3.-5. newLen / numberLen agreement.
    let newLen ← ToUint32 DescValue
    let numberLen ← ToNumber DescValue
    if newLen ≠ numberLen then throw (.throwComp .rangeError)
    -- 2., 6. newLenDesc is a copy of Desc with [[Value]] = newLen.
    let newLenDesc0 : DescE := { Desc with value := some (.numv newLen) }
    -- 7.-9. current length.
    let r ← OrdinaryGetOwnProperty A (.str "length")
    match r.1 with
    | none => throw .invariantFail
    | some oldLenDesc => do
      if IsAccessorDescriptor (some oldLenDesc) then throw .invariantFail
      match oldLenDesc.value with
      | none => throw .invariantFail
      | some oldLenV => do
        if !oldLenV.isConcrete then throw .introspection
        match oldLenV with
        | .numv oldLen => do
          -- 10. Growing (or keeping) the length is an ordinary define.
          if newLen ≥ oldLen then
            let s ← OrdinaryDefineOwnProperty r.2 (.str "length") newLenDesc0
            return (s.1, s.2)
          -- 11. Non-writable length refuses to shrink.
          if oldLenDesc.writable != some true then return (false, r.2)
          -- 12.-13. defer clearing [[Writable]].
          let newWritable := newLenDesc0.writable.isNone || newLenDesc0.writable == some true
          let newLenDesc1 : DescE :=
            if newWritable then newLenDesc0 else { newLenDesc0 with writable := some true }
          -- 14.-15.
          let s ← OrdinaryDefineOwnProperty r.2 (.str "length") newLenDesc1
          if s.1 = false then return (false, s.2)
          -- Divergence from the normative algorithm: only present indices.
          let keys := arraySetLengthKeys s.2.properties newLen oldLen
          -- 16.-18.
          arraySetLengthDeleteLoop keys newLenDesc1 newWritable s.2
        | _ => throw .invariantFail

/-- A writable, non-enumerable, non-configurable array `length` descriptor. -/
def lengthDesc (n : Int) : DescE :=
  { value := some (.numv n), writable := some true,
    enumerable := some false, configurable := some false }

/-- An array element descriptor with the given configurability. -/
def elemDesc (cfg : Bool) : DescE :=
  { value := some (.numv 7), writable := some true,
    enumerable := some true, configurable := some cfg }

/-- Failing input for claim C1: an array of length 11 owning index 2
(configurable) and index 10 (non-configurable). -/
def arrC1 : ObjState :=
  { properties := [("length", some (lengthDesc 11)),
                   ("2", some (elemDesc true)),
                   ("10", some (elemDesc false))] }

/-- The state `ArraySetLength` leaves behind on the failing input: index 2
has been deleted even though the refusal happened at index 10. -/
def arrC1After : ObjState :=
  { properties := [("length", some (lengthDesc 11)),
                   ("2", none),
                   ("10", some (elemDesc false))],
    modified := [.str "length", .str "2", .str "length"] }

/-- C1 (code bug).  The claim — deletions in descending numeric index
order, stopping at the first refused delete — is the intent (the source
quotes the normative step "Set oldLen to oldLen - 1" and its divergence
comment only concerns skipping absent indices), but the code sorts the
present indices with the JS *default* sort, which compares decimal
strings: shrinking the array `{2: configurable, 10: non-configurable}`
from length 11 to 0 walks `[2, 10]` (ascending), so index 2 is deleted
although the first refusal in descending numeric order would have been
index 10 (leaving 2 intact), and only then is the refusal at 10 observed,
restoring length 11 and returning false. -/
theorem claim_C1 :
    arraySetLengthKeys arrC1.properties 0 11 = [2, 10] ∧
    ArraySetLength arrC1 { value := some (.numv 0) } = .ok (false, arrC1After) ∧
    getBinding arrC1After (.str "2") = some none ∧
    getBinding arrC1After (.str "10") = some (some (elemDesc false)) := by
  refine ⟨by decide, rfl, rfl, rfl⟩

/-- A heap of objects addressed by id, plus the log of setter invocations
performed by `OrdinarySet` step 8 (`Call(setter, Receiver, [V])` runs an
external function body; the call itself is what the embedding records).
Prototype chains are passed alongside as lists of object ids: the list
`O :: parents` stands for O followed by the objects `$GetPrototypeOf`
reaches until null (every modelled prototype is concrete, so the source's
`parent.throwIfNotConcrete()` holds by construction). -/
structure RealmHeap where
  objs : List ObjState
  setterCalls : List (JSValue × JSValue × JSValue) := []
deriving DecidableEq, Repr

/-- Read an object from the heap. -/
def getObj (h : RealmHeap) (i : Nat) : Option ObjState := h.objs.get? i

/-- Write an object back into the heap. -/
def setObj (h : RealmHeap) (i : Nat) (o : ObjState) : RealmHeap :=
  { h with objs := h.objs.set i o }

/-- `parentPermitsChildPropertyCreation` (src/unnamed/part_000 lines
115-144): determines if an object with parent (chain head) may create its
own property P.  The common tail (lines 131-143): a writable own data
property does not object; anything else pessimistically refuses. -/
def permitsCommonTail (ownDesc : DescE) (h : RealmHeap) :
    Except EvalError (Bool × RealmHeap) :=
  if IsDataDescriptor (some ownDesc) && ownDesc.writable == some true then
    .ok (true, h)
  else
    .ok (false, h)

/-- `parentPermitsChildPropertyCreation` proper, by recursion over the
prototype chain (`[]` plays null; the source is never called with null). -/
def parentPermitsChildPropertyCreation :
    List Nat → RealmHeap → PKey → Except EvalError (Bool × RealmHeap)
  | [], _, _ => .error .invariantFail
  | oid :: parents, h, P => do
    match getObj h oid with
    | none => throw .invariantFail
    | some O => do
      let r ← OrdinaryGetOwnProperty O P
      let h1 := setObj h oid r.2
      let ownDescValue := match r.1 with
        | none => JSValue.undefV
        | some d => d.value.getD .undefV
      if r.1.isNone || ownDescValue.mightHaveBeenDeleted then do
        -- O might not object, so first ask its parent.
        if !parents.isEmpty then do
          let pr ← parentPermitsChildPropertyCreation parents h1 P
          if !pr.1 then return (false, pr.2)
          -- Parent is OK, so if O does not object return true.
          match r.1 with
          | none => return (true, pr.2)
          | some d => permitsCommonTail d pr.2
        else
          match r.1 with
          | none => return (true, h1)
          | some d => permitsCommonTail d h1
      else
        match r.1 with
        | none => throw .invariantFail
        | some d => permitsCommonTail d h1

/-- Modelled from the spec: ECMA262 7.3.4 `CreateDataProperty`
(methods/create.js is not among the sources): define
`{value: V, writable: true, enumerable: true, configurable: true}`. -/
def CreateDataProperty (O : ObjState) (P : PKey) (V : JSValue) :
    Except EvalError (Bool × ObjState) :=
  OrdinaryDefineOwnProperty O P
    { value := some V, writable := some true,
      enumerable := some true, configurable := some true }

/-- Steps 4-9 of `OrdinarySet` (src/unnamed/part_000 lines 190-269), after
the own-descriptor / prototype-chain resolution of steps 2-3 produced a
definite `ownDesc`.  Receiver objects are heap-resident `.objv` values
(object wrappers never occur as receivers in the modelled flows). -/
def ordinarySetFinish (ownDesc : DescE) (ownDescValue : JSValue)
    (weakDeletion : Bool) (h : RealmHeap) (P : PKey) (V : JSValue)
    (Receiver : JSValue) : Except EvalError (Bool × RealmHeap) := do
  -- 4. If IsDataDescriptor(ownDesc) is true, then
  if IsDataDescriptor (some ownDesc) then do
    -- a. If ownDesc.[[Writable]] is false, return false (unless weak delete).
    if ownDesc.writable != some true && !weakDeletion then do
      if ownDescValue.mightHaveBeenDeleted then do
        if ownDescValue.isConcrete then throw .invariantFail
        throw .introspection
      return (false, h)
    -- b. If Type(Receiver) is not Object, return false.
    if !Receiver.isConcrete then throw .introspection
    match Receiver with
    | .objv rid => do
      match getObj h rid with
      | none => throw .invariantFail
      | some R => do
        -- c. existingDescriptor = Receiver.[[GetOwnProperty]](P).
        let er ← OrdinaryGetOwnProperty R P
        let h2 := setObj h rid er.2
        let existingDescValue := match er.1 with
          | none => JSValue.undefV
          | some d => d.value.getD .undefV
        match er.1 with
        | some ed => do
          -- d.i. accessor on the receiver refuses the data write.
          if IsAccessorDescriptor (some ed) then do
            if existingDescValue.mightHaveBeenDeleted then throw .invariantFail
            return (false, h2)
          -- d.ii. non-writable receiver property refuses.
          if ed.writable != some true &&
              !(weakDeletion && ed.configurable == some true) then do
            if existingDescValue.mightHaveBeenDeleted then do
              if existingDescValue.isConcrete then throw .invariantFail
              throw .introspection
            return (false, h2)
          -- d.iii. valueDesc.
          let valueDesc : DescE :=
            if weakDeletion then { ed with value := some V } else { value := some V }
          -- d.iv. possibly delete a provably stale binding, then define.
          let h3 ← (if weakDeletion || existingDescValue.mightHaveBeenDeleted then do
              match getObj h2 rid with
              | none => throw .invariantFail
              | some R2 => do
                let dr ← OrdinaryDelete R2 P
                pure (setObj h2 rid dr.2)
            else pure h2)
          match getObj h3 rid with
          | none => throw .invariantFail
          | some R3 => do
            let defr ← OrdinaryDefineOwnProperty R3 P valueDesc
            return (defr.1, setObj h3 rid defr.2)
        | none => do
          -- e. Receiver has no property P: CreateDataProperty(Receiver, P, V).
          let cr ← CreateDataProperty R P V
          return (cr.1, setObj h rid cr.2)
    | _ => return (false, h)
  else do
    -- 5. Assert: IsAccessorDescriptor(ownDesc) is true.
    if !IsAccessorDescriptor (some ownDesc) then throw .invariantFail
    -- 6.-7. setter must exist and not be undefined.
    match ownDesc.set with
    | none => return (false, h)
    | some sv => do
      if sv == .undefV then return (false, h)
      -- 8. Perform Call(setter.throwIfNotConcrete(), Receiver, [V]).
      if !sv.isConcrete then throw .introspection
      -- 9. Return true.
      return (true, { h with setterCalls := h.setterCalls ++ [(sv, Receiver, V)] })

/-- ECMA262 9.1.9.1 `OrdinarySet` (src/unnamed/part_000 lines 147-270),
by recursion over the prototype chain `O :: parents`. -/
def OrdinarySet :
    List Nat → RealmHeap → PKey → JSValue → JSValue →
    Except EvalError (Bool × RealmHeap)
  | [], _, _, _, _ => .error .invariantFail
  | oid :: parents, h, P, V, Receiver => do
    match getObj h oid with
    | none => throw .invariantFail
    | some O => do
      let weakDeletion := V.mightHaveBeenDeleted
      -- 2. ownDesc = O.[[GetOwnProperty]](P).
      let r ← OrdinaryGetOwnProperty O P
      let h1 := setObj h oid r.2
      let ownDescValue := match r.1 with
        | none => JSValue.undefV
        | some d => d.value.getD .undefV
      -- 3. If ownDesc is undefined (or might be), then
      if r.1.isNone || ownDescValue.mightHaveBeenDeleted then do
        if !parents.isEmpty then do
          match r.1 with
          | none =>
            -- 3.b.i. Return parent.[[Set]](P, V, Receiver).
            OrdinarySet parents h1 P V Receiver
          | some d => do
            -- Uncertain own property: the parent might have a say.
            let pp ← parentPermitsChildPropertyCreation parents h1 P
            if !pp.1 then do
              if ownDescValue.isConcrete then throw .invariantFail
              throw .introspection
            ordinarySetFinish d ownDescValue weakDeletion pp.2 P V Receiver
        else
          match r.1 with
          | none =>
            -- 3.i. default ownDesc for a fresh property.
            ordinarySetFinish
              { value := some .undefV, writable := some true,
                enumerable := some true, configurable := some true }
              ownDescValue weakDeletion h1 P V Receiver
          | some d =>
            ordinarySetFinish d ownDescValue weakDeletion h1 P V Receiver
      else
        match r.1 with
        | none => throw .invariantFail
        | some d =>
          ordinarySetFinish d ownDescValue weakDeletion h1 P V Receiver

/-- ECMA262 7.3.3 `Set` (src/unnamed/part_000 lines 685-705):
`success = O.[[Set]](P, V, O)`; false under Throw=true becomes a
language-level TypeError Throw completion. -/
def Set (chain : List Nat) (h : RealmHeap) (P : PKey) (V : JSValue)
    (Throw : Bool) : Except EvalError (Bool × RealmHeap) := do
  match chain with
  | [] => throw .invariantFail
  | oid :: _ => do
    let r ← OrdinarySet chain h P V (.objv oid)
    if r.1 == false && Throw == true then throw (.throwComp .typeError)
    return r

theorem mightDeleted_not_concrete (v : JSValue)
    (h : v.mightHaveBeenDeleted = true) : v.isConcrete = false := by
  cases v <;> simp [JSValue.mightHaveBeenDeleted, JSValue.isConcrete] at h ⊢

/-- C4. OrdinarySet consults the prototype chain only when the object has
no certain own descriptor for the key: with a certain own descriptor (its
value does not carry the might-have-been-deleted flag) the outcome is the
same for every prototype chain tail.  And whenever the decision depends on
a parent whose permission cannot be determined concretely — the own
descriptor's value might have been deleted and
`parentPermitsChildPropertyCreation` on the (non-null) parent says false —
OrdinarySet raises IntrospectionError instead of returning false or
silently creating the property. -/
theorem claim_C4 (h : RealmHeap) (oid : Nat) (O O2 : ObjState) (P : PKey)
    (V recv : JSValue) (d : DescE)
    (hobj : getObj h oid = some O)
    (hown : OrdinaryGetOwnProperty O P = .ok (some d, O2)) :
    ((d.value.getD .undefV).mightHaveBeenDeleted = false →
      ∀ parents parents2 : List Nat,
        OrdinarySet (oid :: parents) h P V recv =
          OrdinarySet (oid :: parents2) h P V recv) ∧
    (∀ pid prest h2, (d.value.getD .undefV).mightHaveBeenDeleted = true →
      parentPermitsChildPropertyCreation (pid :: prest) (setObj h oid O2) P =
        .ok (false, h2) →
      OrdinarySet (oid :: pid :: prest) h P V recv = .error .introspection) := by
  constructor
  · intro hdel parents parents2
    simp [OrdinarySet, hobj, hown, hdel, bind, Except.bind]
  · intro pid prest h2 hdel hpp
    have hconc := mightDeleted_not_concrete _ hdel
    simp [OrdinarySet, hobj, hown, hdel, hpp, hconc, bind, Except.bind, pure,
      Except.pure, throw, throwThe, MonadExceptOf.throw]

/-- Descriptor of the C4 witness child: an abstract value flagged
might-have-been-deleted on a writable configurable data property. -/
def descC4abs : DescE :=
  { value := some (.abstract 0 true true), writable := some true,
    enumerable := some true, configurable := some true }

/-- Descriptor of the C4 witness parent: non-writable, non-configurable
data property (refuses child property creation). -/
def descC4nw : DescE :=
  { value := some (.numv 5), writable := some false,
    enumerable := some true, configurable := some false }

/-- Descriptor of the certain-own-descriptor C4 child: plain writable data. -/
def descC4w : DescE :=
  { value := some (.numv 5), writable := some true,
    enumerable := some true, configurable := some true }

/-- The C4 witness child owning "p" with `descC4abs`. -/
def childC4 : ObjState := { properties := [("p", some descC4abs)] }

/-- The C4 witness parent owning "p" with `descC4nw`. -/
def parentC4 : ObjState := { properties := [("p", some descC4nw)] }

/-- The C4 certain-descriptor child owning "p" with `descC4w`. -/
def childC4b : ObjState := { properties := [("p", some descC4w)] }

/-- The C4 heaps. -/
def heapC4 : RealmHeap := { objs := [childC4, parentC4] }

/-- The C4 heap with a certain own descriptor on the child. -/
def heapC4b : RealmHeap := { objs := [childC4b, parentC4] }

/-- Closed witness for claim C4, discharging both conjuncts at concrete
inputs: a certain own descriptor makes the outcome independent of the
chain tail, and an uncertain descriptor over a refusing parent raises
IntrospectionError. -/
theorem claim_C4_witness :
    OrdinarySet [0, 1] heapC4b (.str "p") (.numv 9) (.objv 0) =
      OrdinarySet [0] heapC4b (.str "p") (.numv 9) (.objv 0) ∧
    OrdinarySet [0, 1] heapC4 (.str "p") (.numv 9) (.objv 0) =
      .error .introspection := by
  constructor
  · exact (claim_C4 heapC4b 0 childC4b childC4b (.str "p") (.numv 9) (.objv 0)
      descC4w (by decide) (by decide)).1 (by decide) [1] []
  · exact (claim_C4 heapC4 0 childC4 childC4 (.str "p") (.numv 9) (.objv 0)
      descC4abs (by decide) (by decide)).2 1 []
      { objs := [childC4, parentC4] } (by decide) (by decide)

/-- C7. Failed deletes, rejected define attempts, and failed sets are
reported to the caller as the boolean false rather than by raising (a
refused delete of a non-configurable property is an ok-false result); the
wrappers DeletePropertyOrThrow and DefinePropertyOrThrow, and Set when
invoked with Throw = true (strict mode), convert a false result into a
language-level Throw completion carrying a TypeError, and return true
(respectively the underlying success value) otherwise. -/
theorem claim_C7 :
    (∀ (O : ObjState) (P : PKey) (b : Bool) (O2 : ObjState),
      OrdinaryDelete O P = .ok (b, O2) →
      DeletePropertyOrThrow O P =
        if b then .ok (b, O2) else .error (.throwComp .typeError)) ∧
    (∀ (O : ObjState) (P : PKey) (desc : DescE) (b : Bool) (O2 : ObjState),
      OrdinaryDefineOwnProperty O P desc = .ok (b, O2) →
      DefinePropertyOrThrow O P desc =
        if b then .ok (b, O2) else .error (.throwComp .typeError)) ∧
    (∀ (oid : Nat) (rest : List Nat) (h : RealmHeap) (P : PKey) (V : JSValue)
      (Throw : Bool) (b : Bool) (h2 : RealmHeap),
      OrdinarySet (oid :: rest) h P V (.objv oid) = .ok (b, h2) →
      Set (oid :: rest) h P V Throw =
        if !b && Throw then .error (.throwComp .typeError) else .ok (b, h2)) ∧
    (∀ (O O2 : ObjState) (P : PKey) (d : DescE),
      OrdinaryGetOwnProperty O P = .ok (some d, O2) →
      d.configurable ≠ some true →
      OrdinaryDelete O P = .ok (false, O2)) := by
  refine ⟨?_, ?_, ?_, ?_⟩
  · intro O P b O2 hdel
    cases b <;>
      simp [DeletePropertyOrThrow, hdel, bind, Except.bind, pure, Except.pure,
        throw, throwThe, MonadExceptOf.throw]
  · intro O P desc b O2 hdef
    cases b <;>
      simp [DefinePropertyOrThrow, hdef, bind, Except.bind, pure, Except.pure,
        throw, throwThe, MonadExceptOf.throw]
  · intro oid rest h P V Throw b h2 hset
    cases b <;> cases Throw <;>
      simp [Set, hset, bind, Except.bind, pure, Except.pure,
        throw, throwThe, MonadExceptOf.throw]
  · intro O O2 P d hown hcfg
    have hbeq : (d.configurable == some true) = false := by
      simpa using hcfg
    simp [OrdinaryDelete, hown, hbeq, bind, Except.bind, pure, Except.pure]

/-- The C7 witness object: "q" is a non-configurable, non-writable data
property, so deletes and redefines of it are refused with false. -/
def objC7 : ObjState := { properties := [("q", some descC4nw)] }

/-- The C7 witness heap. -/
def heapC7 : RealmHeap := { objs := [objC7] }

/-- Closed witness for claim C7 at concrete inputs: the refused delete is
an ok-false result, and each wrapper converts false into a TypeError
throw (Set only under Throw = true). -/
theorem claim_C7_witness :
    DeletePropertyOrThrow objC7 (.str "q") = .error (.throwComp .typeError) ∧
    DefinePropertyOrThrow objC7 (.str "q") { value := some (.numv 9) } =
      .error (.throwComp .typeError) ∧
    Set [0] heapC7 (.str "q") (.numv 9) true = .error (.throwComp .typeError) ∧
    Set [0] heapC7 (.str "q") (.numv 9) false = .ok (false, heapC7) ∧
    OrdinaryDelete objC7 (.str "q") = .ok (false, objC7) := by
  refine ⟨?_, ?_, ?_, ?_, ?_⟩
  · exact claim_C7.1 objC7 (.str "q") false objC7 (by decide)
  · exact claim_C7.2.1 objC7 (.str "q") { value := some (.numv 9) } false objC7
      (by decide)
  · exact claim_C7.2.2.1 0 [] heapC7 (.str "q") (.numv 9) true false heapC7
      (by decide)
  · exact claim_C7.2.2.1 0 [] heapC7 (.str "q") (.numv 9) false false heapC7
      (by decide)
  · exact claim_C7.2.2.2 objC7 objC7 (.str "q") descC4nw (by decide) (by decide)

/-- Modelled from the spec: `CanonicalNumericIndexString` (methods/to.js
is not among the sources), restricted to the integer domain of the value
model: a string is a canonical integer-index string iff it round-trips
through integer parsing (`ToString(ToNumber(P)) = P`).  Non-integer
canonical numeric strings ("1.5", "Infinity", "1e21") and "-0" yield
`none` here; the source would produce them as numbers and then discard
them in steps 7-8 of the string-exotic GetOwnProperty, with the same
observable result. -/
def digitsToNat (ds : List Char) : Nat :=
  ds.foldl (fun a c => a * 10 + (c.toNat - 48)) 0

/-- The canonical decimal digit strings: "0", or digits without a leading
zero. -/
def canonDigits : List Char → Option Nat
  | [] => none
  | ['0'] => some 0
  | c :: cs =>
    if c.isDigit && c != '0' && cs.all Char.isDigit then
      some (digitsToNat (c :: cs))
    else none

def CanonicalNumericIndexString (s : String) : Option Int :=
  match s.data with
  | '-' :: rest =>
    match canonDigits rest with
    | some m => if m = 0 then none else some (-(Int.ofNat m))
    | none => none
  | cs => (canonDigits cs).map Int.ofNat

/-- ECMA262 7.2.6 `IsInteger` (src/unnamed/part_001 lines 119-131): the
NaN/infinity/fraction rejections are vacuous on the integer value model. -/
def IsInteger (_ : Int) : Bool := true

/-- ECMA262 9.4.3.1, the string-wrapper exotic `$GetOwnProperty`
(src/src/values/StringExotic.js lines 29-75).  `stringData` is the
`[[StringData]]` slot; code units are modelled as Lean characters. -/
def stringExoticGetOwnProperty (st : ObjState) (stringData : String)
    (P : PKey) : Except EvalError (Option DescE × ObjState) := do
  -- 2.-3. the ordinary lookup result wins when present.
  let r ← OrdinaryGetOwnProperty st P
  match r.1 with
  | some desc => do
    ThrowIfMightHaveBeenDeleted desc.value
    return (some desc, r.2)
  | none =>
    -- 4. If Type(P) is not String, return undefined.
    match P with
    | .sym _ => return (none, r.2)
    | .str ps =>
      -- 5.-6. index = CanonicalNumericIndexString(P).
      match CanonicalNumericIndexString ps with
      | none => return (none, r.2)
      | some index => do
        -- 7. If IsInteger(index) is false, return undefined.
        if IsInteger index = false then return (none, r.2)
        -- 8. (index = -0 cannot arise in the integer model.)
        -- 9.-11. range check against the underlying string data.
        let len : Int := Int.ofNat stringData.length
        if index < 0 ∨ len ≤ index then return (none, r.2)
        -- 12.-13. synthesize the read-only enumerable data descriptor.
        let resultStr := String.singleton (stringData.data.getD index.toNat ' ')
        return (some { value := some (.strv resultStr), writable := some false,
                       enumerable := some true, configurable := some false }, r.2)

/-- C5. String-wrapper exotic GetOwnProperty: an existing ordinary own
descriptor is always returned as-is (ordinary own data wins over
synthesized data); the synthesized index descriptor {value: the single
code unit, writable: false, enumerable: true, configurable: false} is
produced exactly when no ordinary descriptor exists, the key is a
canonical integer-index string and the index is in [0, length); every
other key with no ordinary descriptor yields absent. -/
theorem claim_C5 (st st2 : ObjState) (sd : String) (P : PKey) :
    (∀ d, OrdinaryGetOwnProperty st P = .ok (some d, st2) →
      (d.value.getD .undefV).mightHaveBeenDeleted = false →
      stringExoticGetOwnProperty st sd P = .ok (some d, st2)) ∧
    (∀ ps n, P = .str ps →
      OrdinaryGetOwnProperty st P = .ok (none, st2) →
      CanonicalNumericIndexString ps = some n →
      0 ≤ n → n < Int.ofNat sd.length →
      stringExoticGetOwnProperty st sd P = .ok
        (some { value := some (.strv (String.singleton (sd.data.getD n.toNat ' '))),
                writable := some false, enumerable := some true,
                configurable := some false }, st2)) ∧
    (OrdinaryGetOwnProperty st P = .ok (none, st2) →
      (∀ ps, P = .str ps →
        ∀ n, CanonicalNumericIndexString ps = some n →
          ¬(0 ≤ n ∧ n < Int.ofNat sd.length)) →
      stringExoticGetOwnProperty st sd P = .ok (none, st2)) := by
  refine ⟨?_, ?_, ?_⟩
  · intro d hown hdel
    have hthrow : ThrowIfMightHaveBeenDeleted d.value = .ok () := by
      cases hv : d.value with
      | none => rfl
      | some v =>
        rw [hv] at hdel
        simp at hdel
        simp [ThrowIfMightHaveBeenDeleted, hdel]
    simp [stringExoticGetOwnProperty, hown, hthrow, bind, Except.bind,
      pure, Except.pure]
  · intro ps n hP hown hcanon h0 hlen
    subst hP
    have hrange : ¬(n < 0 ∨ Int.ofNat sd.length ≤ n) := by omega
    simp [stringExoticGetOwnProperty, hown, hcanon, IsInteger, hrange,
      bind, Except.bind, pure, Except.pure]
    simp only [Int.ofNat_eq_natCast] at hlen
    omega
  · intro hown hno
    match P with
    | .sym i =>
      simp [stringExoticGetOwnProperty, hown, bind, Except.bind, pure, Except.pure]
    | .str ps =>
      match hcanon : CanonicalNumericIndexString ps with
      | none =>
        simp [stringExoticGetOwnProperty, hown, hcanon, bind, Except.bind,
          pure, Except.pure]
      | some n =>
        have hout := hno ps rfl n hcanon
        have hrange : n < 0 ∨ Int.ofNat sd.length ≤ n := by omega
        simp [stringExoticGetOwnProperty, hown, hcanon, IsInteger, hrange,
          bind, Except.bind, pure, Except.pure]
        simp only [Int.ofNat_eq_natCast] at hrange
        omega

/-- The C5 witness object: it ordinarily owns index "1" with `descC4w`. -/
def strObjC5 : ObjState := { properties := [("1", some descC4w)] }

/-- Closed witness for claim C5 over the string data "hi": the ordinary
own property at "1" wins over the synthesized code unit, index "0" is
synthesized, and "2" (out of range) and "x" (not an index) are absent. -/
theorem claim_C5_witness :
    stringExoticGetOwnProperty strObjC5 "hi" (.str "1") =
      .ok (some descC4w, strObjC5) ∧
    stringExoticGetOwnProperty strObjC5 "hi" (.str "0") =
      .ok (some { value := some (.strv "h"), writable := some false,
                  enumerable := some true, configurable := some false }, strObjC5) ∧
    stringExoticGetOwnProperty strObjC5 "hi" (.str "2") = .ok (none, strObjC5) ∧
    stringExoticGetOwnProperty strObjC5 "hi" (.str "x") = .ok (none, strObjC5) := by
  refine ⟨?_, ?_, ?_, ?_⟩
  · exact (claim_C5 strObjC5 strObjC5 "hi" (.str "1")).1 descC4w
      (by decide) (by decide)
  · exact (claim_C5 strObjC5 strObjC5 "hi" (.str "0")).2.1 "0" 0 rfl
      (by decide) (by decide) (by decide) (by decide)
  · refine (claim_C5 strObjC5 strObjC5 "hi" (.str "2")).2.2 (by decide) ?_
    intro ps hps n hn
    cases hps
    rw [show CanonicalNumericIndexString "2" = some 2 from by decide] at hn
    cases hn
    decide
  · refine (claim_C5 strObjC5 strObjC5 "hi" (.str "x")).2.2 (by decide) ?_
    intro ps hps n hn
    cases hps
    rw [show CanonicalNumericIndexString "x" = (none : Option Int) from by decide] at hn
    cases hn

/-- ECMA262 9.4.2 `IsArrayIndex` on a string key (src/unnamed/part_001
lines 288-300): the key round-trips through ToUint32/ToString and is not
2^32 - 1.  On the integer model that is: a canonical decimal digit string
whose value is below 2^32 - 1. -/
def IsArrayIndex (s : String) : Bool :=
  match canonDigits s.data with
  | some m => m < 4294967295
  | none => false

/-- Modelled from the spec: OrdinaryOwnPropertyKeys for ordinary objects
(the ordering invariant of §4.2: ascending numeric-index keys, then the
remaining string keys in creation order, then symbol keys in creation
order; only live bindings contribute keys). -/
def ownPropertyKeysOrdinary (O : ObjState) : List PKey :=
  let live := (O.properties.filter (fun kv => kv.2.isSome)).map Prod.fst
  let idxKeys := sortAscending
    (fun a b => Nat.ble (digitsToNat a.data) (digitsToNat b.data))
    (live.filter IsArrayIndex)
  let strKeys := live.filter (fun s => !IsArrayIndex s)
  let symKeys := (O.symbols.filter (fun kv => kv.2.isSome)).map Prod.fst
  (idxKeys ++ strKeys).map PKey.str ++ symKeys.map PKey.sym

/-- The observable steps of the `EnumerateObjectProperties` iterator
(src/unnamed/part_000 lines 1020-1069): a yielded key, a key remembered
because it was met as non-enumerable, a duplicate skipped, a symbol
skipped, and the final done result produced when the prototype chain
reaches null. -/
inductive EnumEvent where
  | yieldKey (k : PKey)
  | sawNonEnum (k : String)
  | skipVisited (k : String)
  | skipSymbol (id : Nat)
  | done
deriving DecidableEq, Repr

/-- One object's portion of the iterator loop: `index` marches through the
snapshot of `obj.$OwnPropertyKeys()`, consulting `$GetOwnProperty` and the
`visited` set exactly as the source's `next` body does. -/
def enumerateKeysOfObj (O : ObjState) :
    List PKey → List String → Except EvalError (List EnumEvent × List String)
  | [], visited => .ok ([], visited)
  | k :: rest, visited => do
    match k with
    | .sym i => do
      -- Omit symbols.
      let r ← enumerateKeysOfObj O rest visited
      return (.skipSymbol i :: r.1, r.2)
    | .str s => do
      let g ← OrdinaryGetOwnProperty O (.str s)
      match g.1 with
      | some d =>
        if d.enumerable != some true then do
          -- Omit non-enumerable properties (but remember the key).
          ThrowIfMightHaveBeenDeleted d.value
          let r ← enumerateKeysOfObj g.2 rest (visited ++ [s])
          return (.sawNonEnum s :: r.1, r.2)
        else
          if visited.contains s then do
            -- Omit duplicates.
            let r ← enumerateKeysOfObj g.2 rest visited
            return (.skipVisited s :: r.1, r.2)
          else do
            -- Yield the key.
            let r ← enumerateKeysOfObj g.2 rest (visited ++ [s])
            return (.yieldKey (.str s) :: r.1, r.2)
      | none =>
        -- A vanished descriptor skips the non-enumerable branch entirely.
        if visited.contains s then do
          let r ← enumerateKeysOfObj g.2 rest visited
          return (.skipVisited s :: r.1, r.2)
        else do
          let r ← enumerateKeysOfObj g.2 rest (visited ++ [s])
          return (.yieldKey (.str s) :: r.1, r.2)

/-- ECMA262 13.7.5.15 `EnumerateObjectProperties`
(src/unnamed/part_000 lines 1020-1069).  The prototype chain is the list
`O :: parents`; exhausting it is the `proto instanceof NullValue` exit,
which produces the done result. -/
def EnumerateObjectProperties :
    List ObjState → List String → Except EvalError (List EnumEvent)
  | [], _ => .ok [.done]
  | O :: rest, visited => do
    let r ← enumerateKeysOfObj O (ownPropertyKeysOrdinary O) visited
    let tr ← EnumerateObjectProperties rest r.2
    return (r.1 ++ tr)

/-- The string keys an event trace yields. -/
def yieldsOf (tr : List EnumEvent) : List PKey :=
  tr.filterMap (fun e => match e with | .yieldKey k => some k | _ => none)

theorem yieldsOf_mem {k : PKey} {tr : List EnumEvent} :
    k ∈ yieldsOf tr ↔ EnumEvent.yieldKey k ∈ tr := by
  unfold yieldsOf
  rw [List.mem_filterMap]
  constructor
  · rintro ⟨e, he, hf⟩
    cases e <;> simp at hf
    subst hf; exact he
  · intro h
    exact ⟨.yieldKey k, h, rfl⟩

theorem yieldsOf_append (a b : List EnumEvent) :
    yieldsOf (a ++ b) = yieldsOf a ++ yieldsOf b := by
  unfold yieldsOf
  exact List.filterMap_append ..

/-- Invariant satisfied by every trace `enumerateKeysOfObj` produces when
started with duplicate set `visited`, finishing with set `visited2`. -/
def EnumSpec (tr : List EnumEvent) (visited visited2 : List String) : Prop :=
  (∀ s, EnumEvent.yieldKey (.str s) ∈ tr → s ∉ visited) ∧
  (∀ s, EnumEvent.yieldKey (.str s) ∈ tr → s ∈ visited2) ∧
  (∀ s, EnumEvent.sawNonEnum s ∈ tr → s ∈ visited2) ∧
  (∀ s, s ∈ visited → s ∈ visited2) ∧
  (∀ k, EnumEvent.yieldKey k ∈ tr → ∃ s, k = PKey.str s) ∧
  (yieldsOf tr).Nodup ∧
  EnumEvent.done ∉ tr ∧
  (∀ t1 t2 s, tr = t1 ++ t2 → EnumEvent.sawNonEnum s ∈ t1 →
    EnumEvent.yieldKey (.str s) ∉ t2)

theorem enumSpec_nil (visited : List String) : EnumSpec [] visited visited := by
  unfold EnumSpec
  refine ⟨by simp, by simp, by simp, fun s h => h, by simp, by simp [yieldsOf],
    by simp, ?_⟩
  intro t1 t2 s ht hs
  have ht1 : t1 = [] := by
    cases t1 with
    | nil => rfl
    | cons a b => simp at ht
  subst ht1
  simp at hs

theorem enumSpec_skipSymbol (i : Nat) {tr : List EnumEvent}
    {visited visited2 : List String} (h : EnumSpec tr visited visited2) :
    EnumSpec (.skipSymbol i :: tr) visited visited2 := by
  obtain ⟨h1, h2, h3, h4, h5, h6, h7, h8⟩ := h
  refine ⟨?_, ?_, ?_, h4, ?_, ?_, ?_, ?_⟩
  · intro s hs; exact h1 s (by simpa using hs)
  · intro s hs; exact h2 s (by simpa using hs)
  · intro s hs; exact h3 s (by simpa using hs)
  · intro k hk; exact h5 k (by simpa using hk)
  · simpa [yieldsOf] using h6
  · simp [h7]
  · intro t1 t2 s ht hsne
    match t1, ht with
    | [], ht => simp at hsne
    | e :: t1a, ht =>
      obtain ⟨he, htr⟩ : e = .skipSymbol i ∧ tr = t1a ++ t2 := by
        constructor <;> [exact (List.cons.injEq ..).mp ht |>.1.symm;
          exact (List.cons.injEq ..).mp ht |>.2]
      subst he
      exact h8 t1a t2 s htr (by simpa using hsne)

theorem enumSpec_skipVisited (s0 : String) {tr : List EnumEvent}
    {visited visited2 : List String} (h : EnumSpec tr visited visited2) :
    EnumSpec (.skipVisited s0 :: tr) visited visited2 := by
  obtain ⟨h1, h2, h3, h4, h5, h6, h7, h8⟩ := h
  refine ⟨?_, ?_, ?_, h4, ?_, ?_, ?_, ?_⟩
  · intro s hs; exact h1 s (by simpa using hs)
  · intro s hs; exact h2 s (by simpa using hs)
  · intro s hs; exact h3 s (by simpa using hs)
  · intro k hk; exact h5 k (by simpa using hk)
  · simpa [yieldsOf] using h6
  · simp [h7]
  · intro t1 t2 s ht hsne
    match t1, ht with
    | [], ht => simp at hsne
    | e :: t1a, ht =>
      obtain ⟨he, htr⟩ : e = .skipVisited s0 ∧ tr = t1a ++ t2 := by
        constructor <;> [exact (List.cons.injEq ..).mp ht |>.1.symm;
          exact (List.cons.injEq ..).mp ht |>.2]
      subst he
      exact h8 t1a t2 s htr (by simpa using hsne)

theorem enumSpec_sawNonEnum (s0 : String) {tr : List EnumEvent}
    {visited visited2 : List String}
    (h : EnumSpec tr (visited ++ [s0]) visited2) :
    EnumSpec (.sawNonEnum s0 :: tr) visited visited2 := by
  obtain ⟨h1, h2, h3, h4, h5, h6, h7, h8⟩ := h
  have hs0v2 : s0 ∈ visited2 := h4 s0 (by simp)
  refine ⟨?_, ?_, ?_, ?_, ?_, ?_, ?_, ?_⟩
  · intro s hs
    have := h1 s (by simpa using hs)
    intro hv; exact this (by simp [hv])
  · intro s hs; exact h2 s (by simpa using hs)
  · intro s hs
    rcases (by simpa using hs : s = s0 ∨ EnumEvent.sawNonEnum s ∈ tr) with
      heq | hmem
    · rw [heq]; exact hs0v2
    · exact h3 s hmem
  · intro s hv; exact h4 s (by simp [hv])
  · intro k hk; exact h5 k (by simpa using hk)
  · simpa [yieldsOf] using h6
  · simp [h7]
  · intro t1 t2 s ht hsne
    match t1, ht with
    | [], ht => simp at hsne
    | e :: t1a, ht =>
      obtain ⟨he, htr⟩ : e = .sawNonEnum s0 ∧ tr = t1a ++ t2 := by
        constructor <;> [exact (List.cons.injEq ..).mp ht |>.1.symm;
          exact (List.cons.injEq ..).mp ht |>.2]
      subst he
      rcases (by simpa using hsne : s = s0 ∨ EnumEvent.sawNonEnum s ∈ t1a) with
        heq | hmem
      · subst heq
        intro hyt2
        have : EnumEvent.yieldKey (.str s) ∈ tr := htr ▸ List.mem_append_right t1a hyt2
        exact h1 s this (by simp)
      · exact h8 t1a t2 s htr hmem

theorem enumSpec_yield (s0 : String) {tr : List EnumEvent}
    {visited visited2 : List String} (hs : s0 ∉ visited)
    (h : EnumSpec tr (visited ++ [s0]) visited2) :
    EnumSpec (.yieldKey (.str s0) :: tr) visited visited2 := by
  obtain ⟨h1, h2, h3, h4, h5, h6, h7, h8⟩ := h
  have hs0v2 : s0 ∈ visited2 := h4 s0 (by simp)
  refine ⟨?_, ?_, ?_, ?_, ?_, ?_, ?_, ?_⟩
  · intro s hsm
    rcases (by simpa using hsm : s = s0 ∨ EnumEvent.yieldKey (.str s) ∈ tr) with
      heq | hmem
    · rw [heq]; exact hs
    · have := h1 s hmem
      intro hv; exact this (by simp [hv])
  · intro s hsm
    rcases (by simpa using hsm : s = s0 ∨ EnumEvent.yieldKey (.str s) ∈ tr) with
      heq | hmem
    · rw [heq]; exact hs0v2
    · exact h2 s hmem
  · intro s hsm; exact h3 s (by simpa using hsm)
  · intro s hv; exact h4 s (by simp [hv])
  · intro k hk
    rcases (by simpa using hk : k = PKey.str s0 ∨ EnumEvent.yieldKey k ∈ tr) with
      heq | hmem
    · exact ⟨s0, heq⟩
    · exact h5 k hmem
  · have hy : yieldsOf (.yieldKey (.str s0) :: tr) = .str s0 :: yieldsOf tr := by
      simp [yieldsOf]
    rw [hy]
    refine List.Nodup.cons ?_ h6
    intro hmem
    have := h1 s0 (yieldsOf_mem.mp hmem)
    exact this (by simp)
  · simp [h7]
  · intro t1 t2 s ht hsne
    match t1, ht with
    | [], ht => simp at hsne
    | e :: t1a, ht =>
      obtain ⟨he, htr⟩ : e = .yieldKey (.str s0) ∧ tr = t1a ++ t2 := by
        constructor <;> [exact (List.cons.injEq ..).mp ht |>.1.symm;
          exact (List.cons.injEq ..).mp ht |>.2]
      subst he
      exact h8 t1a t2 s htr (by simpa using hsne)

theorem enumKeys_spec (keys : List PKey) :
    ∀ (O : ObjState) (visited : List String) (tr : List EnumEvent)
      (visited2 : List String),
      enumerateKeysOfObj O keys visited = .ok (tr, visited2) →
      EnumSpec tr visited visited2 := by
  induction keys with
  | nil =>
    intro O visited tr visited2 h
    simp [enumerateKeysOfObj] at h
    obtain ⟨rfl, rfl⟩ := h
    exact enumSpec_nil visited
  | cons k rest ih =>
    intro O visited tr visited2 h
    cases k with
    | sym i =>
      simp only [enumerateKeysOfObj, bind, Except.bind] at h
      cases hr : enumerateKeysOfObj O rest visited with
      | error e => rw [hr] at h; simp at h
      | ok r =>
        rw [hr] at h
        simp [pure, Except.pure] at h
        obtain ⟨rfl, rfl⟩ := h.symm
        exact enumSpec_skipSymbol i (ih O visited r.1 r.2 (by rw [hr]))
    | str s =>
      simp only [enumerateKeysOfObj, bind, Except.bind] at h
      cases hg : OrdinaryGetOwnProperty O (.str s) with
      | error e => rw [hg] at h; simp at h
      | ok g =>
        rw [hg] at h
        obtain ⟨gd, gst⟩ := g
        cases gd with
        | some d =>
          simp only [] at h
          cases henum : (d.enumerable != some true) with
          | true =>
            rw [henum] at h
            simp only [if_true, bind, Except.bind] at h
            cases ht : ThrowIfMightHaveBeenDeleted d.value with
            | error e => rw [ht] at h; simp at h
            | ok u =>
              rw [ht] at h
              cases hr : enumerateKeysOfObj gst rest (visited ++ [s]) with
              | error e => rw [hr] at h; simp at h
              | ok r =>
                rw [hr] at h
                simp [pure, Except.pure] at h
                obtain ⟨rfl, rfl⟩ := h.symm
                exact enumSpec_sawNonEnum s
                  (ih gst (visited ++ [s]) r.1 r.2 (by rw [hr]))
          | false =>
            rw [henum] at h
            simp only [if_false, Bool.false_eq_true] at h
            cases hv : visited.contains s with
            | true =>
              rw [hv] at h
              simp only [if_true, bind, Except.bind] at h
              cases hr : enumerateKeysOfObj gst rest visited with
              | error e => rw [hr] at h; simp at h
              | ok r =>
                rw [hr] at h
                simp [pure, Except.pure] at h
                obtain ⟨rfl, rfl⟩ := h.symm
                exact enumSpec_skipVisited s (ih gst visited r.1 r.2 (by rw [hr]))
            | false =>
              rw [hv] at h
              simp only [if_false, Bool.false_eq_true, bind, Except.bind] at h
              cases hr : enumerateKeysOfObj gst rest (visited ++ [s]) with
              | error e => rw [hr] at h; simp at h
              | ok r =>
                rw [hr] at h
                simp [pure, Except.pure] at h
                obtain ⟨rfl, rfl⟩ := h.symm
                refine enumSpec_yield s ?_ (ih gst (visited ++ [s]) r.1 r.2 (by rw [hr]))
                simpa using hv
        | none =>
          simp only [] at h
          cases hv : visited.contains s with
          | true =>
            rw [hv] at h
            simp only [if_true, bind, Except.bind] at h
            cases hr : enumerateKeysOfObj gst rest visited with
            | error e => rw [hr] at h; simp at h
            | ok r =>
              rw [hr] at h
              simp [pure, Except.pure] at h
              obtain ⟨rfl, rfl⟩ := h.symm
              exact enumSpec_skipVisited s (ih gst visited r.1 r.2 (by rw [hr]))
          | false =>
            rw [hv] at h
            simp only [if_false, Bool.false_eq_true, bind, Except.bind] at h
            cases hr : enumerateKeysOfObj gst rest (visited ++ [s]) with
            | error e => rw [hr] at h; simp at h
            | ok r =>
              rw [hr] at h
              simp [pure, Except.pure] at h
              obtain ⟨rfl, rfl⟩ := h.symm
              refine enumSpec_yield s ?_ (ih gst (visited ++ [s]) r.1 r.2 (by rw [hr]))
              simpa using hv

theorem enumChain_spec (chain : List ObjState) :
    ∀ (visited : List String) (tr : List EnumEvent),
      EnumerateObjectProperties chain visited = .ok tr →
      (∀ s, EnumEvent.yieldKey (.str s) ∈ tr → s ∉ visited) ∧
      (∀ k, EnumEvent.yieldKey k ∈ tr → ∃ s, k = PKey.str s) ∧
      (yieldsOf tr).Nodup ∧
      tr.count EnumEvent.done = 1 ∧
      tr.getLast? = some .done ∧
      (∀ t1 t2 s, tr = t1 ++ t2 → EnumEvent.sawNonEnum s ∈ t1 →
        EnumEvent.yieldKey (.str s) ∉ t2) := by
  induction chain with
  | nil =>
    intro visited tr h
    simp [EnumerateObjectProperties] at h
    obtain rfl := h.symm
    refine ⟨by simp, by simp, by simp [yieldsOf], by simp, by simp, ?_⟩
    intro t1 t2 s ht hs
    have : EnumEvent.sawNonEnum s ∈ [EnumEvent.done] :=
      ht ▸ List.mem_append_left t2 hs
    simp at this
  | cons O rest ih =>
    intro visited tr h
    simp only [EnumerateObjectProperties, bind, Except.bind] at h
    split at h
    next e heq => simp at h
    next r heq =>
      split at h
      next e2 heq2 => simp at h
      next tr2 heq2 =>
        simp [pure, Except.pure] at h
        obtain rfl := h.symm
        obtain ⟨s1, s2, s3, s4, s5, s6, s7, s8⟩ :=
          enumKeys_spec (ownPropertyKeysOrdinary O) O visited r.1 r.2 (by rw [heq])
        obtain ⟨c1, c2, c3, c4, c5, c6⟩ := ih r.2 tr2 (by rw [heq2])
        refine ⟨?_, ?_, ?_, ?_, ?_, ?_⟩
        · intro s hs
          rcases List.mem_append.mp hs with hl | hrr
          · exact s1 s hl
          · intro hv; exact c1 s hrr (s4 s hv)
        · intro k hk
          rcases List.mem_append.mp hk with hl | hrr
          · exact s5 k hl
          · exact c2 k hrr
        · rw [yieldsOf_append]
          refine List.Nodup.append s6 c3 ?_
          intro a ha hb
          obtain ⟨sa, rfl⟩ := s5 a (yieldsOf_mem.mp ha)
          exact c1 sa (yieldsOf_mem.mp hb) (s2 sa (yieldsOf_mem.mp ha))
        · rw [List.count_append]
          rw [List.count_eq_zero.mpr s7, c4]
        · rw [List.getLast?_append, c5]
          rfl
        · intro t1 t2 s ht hs
          rcases List.append_eq_append_iff.mp ht.symm with ⟨m, hm1, hm2⟩ | ⟨m, hm1, hm2⟩
          · -- r.1 = t1 ++ m, t2 = m ++ tr2: the split lies inside r.1.
            intro hy
            rw [hm2] at hy
            rcases List.mem_append.mp hy with hym | hytr2
            · exact s8 t1 m s hm1 hs hym
            · have hsne : EnumEvent.sawNonEnum s ∈ r.1 := by
                rw [hm1]; exact List.mem_append_left m hs
              exact c1 s hytr2 (s3 s hsne)
          · -- t1 = r.1 ++ m, tr2 = m ++ t2: the split lies inside tr2.
            rw [hm1] at hs
            rcases List.mem_append.mp hs with hin1 | hinm
            · intro hy
              have hyt : EnumEvent.yieldKey (.str s) ∈ tr2 := by
                rw [hm2]; exact List.mem_append_right m hy
              exact c1 s hyt (s3 s hin1)
            · exact c6 m t2 s hm2 hinm

/-- C6. The key sequence produced by EnumerateObjectProperties never
yields the same string key twice (even when an object and an object on its
prototype chain both own the key), yields no symbol keys, never yields a
key that was earlier encountered as a non-enumerable own property anywhere
in the chain walked so far, and terminates exactly when the prototype
chain reaches null (the done event appears exactly once, as the final
event of the trace). -/
theorem claim_C6 (chain : List ObjState) (tr : List EnumEvent)
    (h : EnumerateObjectProperties chain [] = .ok tr) :
    (yieldsOf tr).Nodup ∧
    (∀ k, EnumEvent.yieldKey k ∈ tr → ∃ s, k = PKey.str s) ∧
    (∀ t1 t2 s, tr = t1 ++ t2 → EnumEvent.sawNonEnum s ∈ t1 →
      EnumEvent.yieldKey (.str s) ∉ t2) ∧
    tr.count EnumEvent.done = 1 ∧
    tr.getLast? = some .done := by
  obtain ⟨c1, c2, c3, c4, c5, c6⟩ := enumChain_spec chain [] tr h
  exact ⟨c3, c2, c6, c4, c5⟩

/-- A non-enumerable data descriptor for the C6 witness. -/
def dNoEnumC6 : DescE :=
  { value := some (.numv 1), writable := some true,
    enumerable := some false, configurable := some true }

/-- The C6 witness child: enumerable "a", non-enumerable "b" (shadowing
the parent's enumerable "b"), plus a symbol-keyed property. -/
def childC6 : ObjState :=
  { properties := [("a", some dataDescOne), ("b", some dNoEnumC6)],
    symbols := [(3, some dataDescOne)] }

/-- The C6 witness parent: enumerable "a", "b", "c". -/
def parentC6 : ObjState :=
  { properties := [("a", some dataDescOne), ("b", some dataDescOne),
                   ("c", some dataDescOne)] }

/-- The trace the C6 witness chain produces. -/
def traceC6 : List EnumEvent :=
  [.yieldKey (.str "a"), .sawNonEnum "b", .skipSymbol 3, .skipVisited "a",
   .skipVisited "b", .yieldKey (.str "c"), .done]

/-- Closed witness for claim C6 on a chain where child and parent share
keys and a non-enumerable shadow hides an enumerable parent key. -/
theorem claim_C6_witness :
    (yieldsOf traceC6).Nodup ∧
    (∀ k, EnumEvent.yieldKey k ∈ traceC6 → ∃ s, k = PKey.str s) ∧
    (∀ t1 t2 s, traceC6 = t1 ++ t2 → EnumEvent.sawNonEnum s ∈ t1 →
      EnumEvent.yieldKey (.str s) ∉ t2) ∧
    traceC6.count EnumEvent.done = 1 ∧
    traceC6.getLast? = some .done :=
  claim_C6 [childC6, parentC6] traceC6 (by decide)

/-- The `[[ThisMode]]` internal slot of a function. -/
inductive ThisMode where
  | lexical
  | strict
  | wglobal
deriving DecidableEq, Repr

/-- The function data `OrdinaryCallBindThis` consults: its this-mode and
whether it is a `NativeFunctionValue`. -/
structure FunE where
  thisMode : ThisMode
  isNativeFunction : Bool
deriving DecidableEq, Repr

/-- The function environment record of the callee context: only its
this-binding slot matters here (`none` = never bound). -/
structure EnvRec where
  thisSlot : Option JSValue := none
deriving DecidableEq, Repr

/-- `envRec.BindThisValue(v)`: store and return the this value. -/
def BindThisValue (env : EnvRec) (v : JSValue) : JSValue × EnvRec :=
  (v, { env with thisSlot := some v })

/-- Modelled from the spec: `HasSomeCompatibleType(value, Null, Undefined)`
(methods/has.js is not among the sources) on the concrete values these
flows exercise. -/
def mightBeNullOrUndefined : JSValue → Bool
  | .nullv => true
  | .undefV => true
  | _ => false

/-- Modelled from the spec: `ToObjectPartial` (methods/to.js is not among
the sources): objects and abstract object values pass through, null and
undefined raise TypeError, any other primitive boxes into a fresh wrapper
object. -/
def ToObjectPartial : JSValue → Except EvalError JSValue
  | .nullv => .error (.throwComp .typeError)
  | .undefV => .error (.throwComp .typeError)
  | .objv i => .ok (.objv i)
  | .wrapperObj p => .ok (.wrapperObj p)
  | .abstract i d r => .ok (.abstract i d r)
  | v => .ok (.wrapperObj v)

/-- ECMA262 9.2.1.2 `OrdinaryCallBindThis`
(src/src/methods/call.js lines 215-260).  `globalThisValue` is
`globalEnvRec.[[GlobalThisValue]]`; the returned pair is the result value
and the callee environment record (with its this slot possibly bound). -/
def OrdinaryCallBindThis (F : FunE) (globalThisValue : JSValue) (env : EnvRec)
    (thisArgument : JSValue) : Except EvalError (JSValue × EnvRec) := do
  -- 2. If thisMode is lexical, return undefined (nothing is bound).
  if F.thisMode == .lexical then return (.undefV, env)
  -- 5. strict functions (and native functions) take the argument as given.
  if F.thisMode == .strict || F.isNativeFunction then
    return BindThisValue env thisArgument
  else
    -- 6.a. null/undefined coerces to the global this value.
    if mightBeNullOrUndefined thisArgument then
      return BindThisValue env globalThisValue
    else do
      -- 6.b. otherwise box the argument into an object wrapper.
      let tv ← ToObjectPartial thisArgument
      return BindThisValue env tv

/-- C8. OrdinaryCallBindThis computes the this-binding solely from the
function's this-mode: lexical functions bind nothing and yield undefined
(the environment's this slot is untouched); strict or native functions
bind the this-argument exactly as given; other (non-strict) functions bind
the realm's global this-value when the this-argument is null or undefined
and otherwise bind the object-wrapper coercion of the this-argument. -/
theorem claim_C8 (F : FunE) (g : JSValue) (env : EnvRec) (ta : JSValue) :
    (F.thisMode = .lexical →
      OrdinaryCallBindThis F g env ta = .ok (.undefV, env)) ∧
    (F.thisMode ≠ .lexical → (F.thisMode = .strict ∨ F.isNativeFunction = true) →
      OrdinaryCallBindThis F g env ta =
        .ok (ta, { env with thisSlot := some ta })) ∧
    (F.thisMode = .wglobal → F.isNativeFunction = false →
      (ta = .nullv ∨ ta = .undefV) →
      OrdinaryCallBindThis F g env ta =
        .ok (g, { env with thisSlot := some g })) ∧
    (F.thisMode = .wglobal → F.isNativeFunction = false →
      ta ≠ .nullv → ta ≠ .undefV →
      ∀ tv, ToObjectPartial ta = .ok tv →
        OrdinaryCallBindThis F g env ta =
          .ok (tv, { env with thisSlot := some tv })) := by
  refine ⟨?_, ?_, ?_, ?_⟩
  · intro hm
    simp [OrdinaryCallBindThis, hm, pure, Except.pure]
  · intro hne hsn
    obtain ⟨tm, nat⟩ := F
    rcases hsn with hs | hn
    · subst hs
      simp [OrdinaryCallBindThis, BindThisValue, pure, Except.pure, bind,
        Except.bind]
    · cases tm with
      | lexical => exact absurd rfl hne
      | strict =>
        simp [OrdinaryCallBindThis, BindThisValue, pure, Except.pure, bind,
          Except.bind]
      | wglobal =>
        simp at hn
        simp [OrdinaryCallBindThis, BindThisValue, hn, pure, Except.pure, bind,
          Except.bind]
  · intro hm hn hnu
    rcases hnu with rfl | rfl <;>
      simp [OrdinaryCallBindThis, hm, hn, BindThisValue, mightBeNullOrUndefined,
        pure, Except.pure, bind, Except.bind]
  · intro hm hn hnn hnu tv htv
    have hmb : mightBeNullOrUndefined ta = false := by
      cases ta <;> simp_all [mightBeNullOrUndefined]
    simp [OrdinaryCallBindThis, hm, hn, hmb, htv, BindThisValue,
      bind, Except.bind, pure, Except.pure]

/-- Closed witness for claim C8 at concrete inputs: all four modes. -/
theorem claim_C8_witness :
    OrdinaryCallBindThis ⟨.lexical, false⟩ (.objv 7) {} (.numv 3) =
      .ok (.undefV, {}) ∧
    OrdinaryCallBindThis ⟨.strict, false⟩ (.objv 7) {} (.numv 3) =
      .ok (.numv 3, { thisSlot := some (.numv 3) }) ∧
    OrdinaryCallBindThis ⟨.wglobal, false⟩ (.objv 7) {} .nullv =
      .ok (.objv 7, { thisSlot := some (.objv 7) }) ∧
    OrdinaryCallBindThis ⟨.wglobal, false⟩ (.objv 7) {} (.numv 3) =
      .ok (.wrapperObj (.numv 3), { thisSlot := some (.wrapperObj (.numv 3)) }) := by
  refine ⟨?_, ?_, ?_, ?_⟩
  · exact (claim_C8 ⟨.lexical, false⟩ (.objv 7) {} (.numv 3)).1 rfl
  · exact (claim_C8 ⟨.strict, false⟩ (.objv 7) {} (.numv 3)).2.1
      (by decide) (Or.inl rfl)
  · exact (claim_C8 ⟨.wglobal, false⟩ (.objv 7) {} .nullv).2.2.1
      rfl rfl (Or.inl rfl)
  · exact (claim_C8 ⟨.wglobal, false⟩ (.objv 7) {} (.numv 3)).2.2.2
      rfl rfl (by decide) (by decide) (.wrapperObj (.numv 3)) rfl

/-- The two head modes of the for-in/for-of head evaluation. -/
inductive IterationKind where
  | enumerate
  | iterate
deriving DecidableEq, Repr

/-- What `ForInOfHeadEvaluation` returns: the (lazy) key enumerator over
the coerced object's prototype chain, or the delegated iterator value. -/
inductive HeadResult where
  | enumerator (chain : List ObjState)
  | iterator (v : JSValue)
deriving DecidableEq, Repr

/-- Modelled from the spec: `ToObject` (methods/to.js is not among the
sources): null/undefined raise TypeError, objects pass through, other
primitives box into wrapper objects (only reached on concrete values,
after `throwIfNotConcrete`). -/
def ToObject : JSValue → Except EvalError JSValue
  | .nullv => .error (.throwComp .typeError)
  | .undefV => .error (.throwComp .typeError)
  | .objv i => .ok (.objv i)
  | .wrapperObj p => .ok (.wrapperObj p)
  | .abstract .. => .error .introspection
  | v => .ok (.wrapperObj v)

/-- ECMA262 13.7.5.12 `ForInOfHeadEvaluation`
(src/src/evaluators/ReturnStatement.js lines 124-184), from step 6 on:
steps 1-5 (TDZ environment juggling and the evaluation of the head
expression) are delegated to the external evaluator collaborator and enter
here as the already-computed `exprValue`.  `resolveChain` is the realm's
object-to-prototype-chain resolution feeding EnumerateObjectProperties. -/
def ForInOfHeadEvaluation (resolveChain : JSValue → List ObjState)
    (exprValue : JSValue) (iterationKind : IterationKind) :
    Except EvalError HeadResult := do
  -- 6. If iterationKind is enumerate, then
  if iterationKind == .enumerate then
    -- 6.a. null/undefined: break out of the loop immediately.
    if mightBeNullOrUndefined exprValue then
      throw (.breakComp .emptyV none)
    -- 6.b. obj = ToObject(exprValue.throwIfNotConcrete()).
    if !exprValue.isConcrete then throw .introspection
    let obj ← ToObject exprValue
    -- 6.c. Return EnumerateObjectProperties(obj).
    return .enumerator (resolveChain obj)
  else
    -- 8. iterate: delegate to GetIterator (external collaborator).
    return .iterator exprValue

/-- C9. For every for-in head evaluation in enumerate mode whose evaluated
expression value is null or undefined, ForInOfHeadEvaluation produces an
immediate Break completion with empty value and no target (so the loop
exits without running its body) instead of returning an enumerator; for
every other concrete value it returns the EnumerateObjectProperties
enumerator of the object coercion of the value. -/
theorem claim_C9 (resolveChain : JSValue → List ObjState) (v : JSValue) :
    ((v = .nullv ∨ v = .undefV) →
      ForInOfHeadEvaluation resolveChain v .enumerate =
        .error (.breakComp .emptyV none)) ∧
    (v.isConcrete = true → v ≠ .nullv → v ≠ .undefV →
      ∀ obj, ToObject v = .ok obj →
        ForInOfHeadEvaluation resolveChain v .enumerate =
          .ok (.enumerator (resolveChain obj))) := by
  constructor
  · intro hv
    rcases hv with rfl | rfl <;>
      simp [ForInOfHeadEvaluation, mightBeNullOrUndefined, throw, throwThe,
        MonadExceptOf.throw, bind, Except.bind, pure, Except.pure]
  · intro hconc hnn hnu obj hobj
    have hmb : mightBeNullOrUndefined v = false := by
      cases v <;> simp_all [mightBeNullOrUndefined]
    simp [ForInOfHeadEvaluation, hmb, hconc, hobj, bind, Except.bind,
      pure, Except.pure]

/-- Closed witness for claim C9: null breaks, a number is boxed and
enumerated. -/
theorem claim_C9_witness :
    ForInOfHeadEvaluation (fun _ => []) .nullv .enumerate =
      .error (.breakComp .emptyV none) ∧
    ForInOfHeadEvaluation (fun _ => []) (.numv 3) .enumerate =
      .ok (.enumerator []) := by
  constructor
  · exact (claim_C9 (fun _ => []) .nullv).1 (Or.inl rfl)
  · exact (claim_C9 (fun _ => []) (.numv 3)).2 rfl (by decide) (by decide)
      (.wrapperObj (.numv 3)) rfl

/-- A syntax-tree call-expression node; `IsInTailPosition` inspects none
of its payload. -/
structure BabelNodeCallExpression where
  nodeId : Nat
deriving DecidableEq, Repr

/-- ECMA262 14.6.1 `IsInTailPosition` (src/unnamed/part_001 lines
177-181): tail calls are not implemented, so every node answers false. -/
def IsInTailPosition (_ : BabelNodeCallExpression) : Bool := false

/-- ECMA262 14.6.3 `PrepareForTailCall` (src/src/methods/call.js lines
380-392): suspend the running (leaf) context and pop it off the execution
context stack (head = running context). -/
def PrepareForTailCall (stack : List Nat) : List Nat := stack.drop 1

/-- Step 4 of `EvaluateDirectCall` (src/src/methods/call.js lines
362-364): `if (tailPosition === true) PrepareForTailCall(realm)`.  None of
the surrounding steps of EvaluateDirectCall touches the context stack
before the call is issued. -/
def evaluateDirectCallTailStep (tailPosition : Option Bool)
    (stack : List Nat) : List Nat :=
  if tailPosition == some true then PrepareForTailCall stack else stack

/-- C10. IsInTailPosition returns false for every input node; consequently
the tail-call step of EvaluateDirectCall — PrepareForTailCall, which pops
the caller's execution context before the call is issued — is never taken
when the tailPosition flag is derived from IsInTailPosition (nor when it
is absent, as in EvaluateCall), leaving the context stack untouched;
PrepareForTailCall itself, were it ever invoked, would pop the running
context. -/
theorem claim_C10 (node : BabelNodeCallExpression) (stack : List Nat)
    (c : Nat) (rest : List Nat) :
    IsInTailPosition node = false ∧
    evaluateDirectCallTailStep (some (IsInTailPosition node)) stack = stack ∧
    evaluateDirectCallTailStep none stack = stack ∧
    PrepareForTailCall (c :: rest) = rest := by
  refine ⟨rfl, ?_, ?_, rfl⟩
  · simp [evaluateDirectCallTailStep, IsInTailPosition]
  · simp [evaluateDirectCallTailStep]

end Prepock
